import Mathlib

/-!
Shallow embedding of the bookstore back-office API
(Express + Prisma controllers) and proofs about its
transaction-creation workflow, statistics reporting and book CRUD
uniqueness checks.

Conventions of the embedding:
* JavaScript numbers are modelled as `ℚ` (ignoring floating-point
  rounding; every arithmetic fact proved here uses only operations the
  code performs on both sides of the equation).
* `undefined`/missing JSON fields are `Option.none`; JS truthiness of a
  string is "≠ empty string", of a number is "≠ 0".
* The Prisma database is a record of lists; primary-key ids are `Nat`.
* Each `await prisma...` call is a potential failure point.  The
  fallible variant `createTransactionF` takes an oracle saying which
  `prisma.book.update` call (if any) throws; `createTransaction` is the
  run in which every persistence call succeeds.
-/

namespace Bookstore

/-- A genre row: `model Genre { id, name }`. -/
structure Genre where
  id : Nat
  name : String
deriving DecidableEq, Repr

/-- A book row, with the `genre` relation denormalised into `genreName`
(the controllers always query books with `include: { genre: true }`). -/
structure Book where
  id : Nat
  title : String
  author : String
  publisher : String
  publicationYear : Int
  isbn : String
  price : ℚ
  stock : ℚ
  description : String
  genreId : Nat
  genreName : String
deriving DecidableEq, Repr

/-- A `TransactionDetail` row as built by `createTransaction`:
`{ bookId, quantity, price, subtotal }`. -/
structure TransactionDetail where
  bookId : Nat
  quantity : ℚ
  price : ℚ
  subtotal : ℚ
deriving DecidableEq, Repr

/-- A `Transaction` row with its owned details. -/
structure Transaction where
  id : Nat
  userId : Nat
  totalAmount : ℚ
  details : List TransactionDetail
deriving DecidableEq, Repr

/-- The persistent state the controllers touch. -/
structure Db where
  genres : List Genre
  books : List Book
  transactions : List Transaction
  nextGenreId : Nat
  nextBookId : Nat
  nextTransId : Nat
deriving DecidableEq, Repr

/-- One line of the request body `items` list: `{bookId, quantity}`.
`bookId = none` models a missing/falsy `bookId`. -/
structure Item where
  bookId : Option Nat
  quantity : ℚ
deriving DecidableEq, Repr

/-- The request to `POST /transactions`: `req.user?.id` and `req.body.items`
(`items = none` models a missing or non-array `items` field). -/
structure CreateReq where
  userId : Option Nat
  items : Option (List Item)
deriving DecidableEq, Repr

/-- The observable outcomes of `createTransaction`. -/
inductive CreateRes where
  /-- Status 401 "Unauthorized" -/
  | unauthorized
  /-- Status 400 "Items are required" -/
  | itemsRequired
  /-- Status 400 "Invalid item data" -/
  | invalidItemData
  /-- Status 404 "One or more books not found" -/
  | booksNotFound
  /-- Status 404 "Book not found" (per-item re-check) -/
  | bookNotFound
  /-- Status 400 "Insufficient stock for book: <title>" -/
  | insufficientStock (title : String)
  /-- Status 201 with the created transaction -/
  | created (t : Transaction)
  /-- Status 500 "Internal server error" -/
  | internalError
deriving DecidableEq, Repr

/-- Per-item validation `!item.bookId || !item.quantity || item.quantity <= 0`:
an item passes iff `bookId` is present (truthy) and `quantity > 0`
(`!item.quantity` only adds the case `quantity = 0`, subsumed by `≤ 0`). -/
def itemOk (it : Item) : Bool :=
  it.bookId.isSome && decide (0 < it.quantity)

/-- Outcome of the stock-validation loop. -/
inductive StockErr where
  | missing
  | insufficient (title : String)
deriving DecidableEq, Repr

/-- The stock-validation loop: for each item in request order, resolve its
book in the fetched list and compare `book.stock < item.quantity`. -/
def checkStock (books : List Book) : List Item → Option StockErr
  | [] => none
  | it :: rest =>
    match books.find? (fun b => some b.id = it.bookId) with
    | none => some StockErr.missing
    | some b =>
      if b.stock < it.quantity then some (StockErr.insufficient b.title)
      else checkStock books rest

/-- The detail-building loop: one pushed detail per item whose book resolves,
with price snapshotted from the fetched book and `subtotal = price * quantity`. -/
def mkDetails (books : List Book) (items : List Item) : List TransactionDetail :=
  items.filterMap (fun it =>
    match it.bookId with
    | none => none
    | some bid =>
      (books.find? (fun b => b.id = bid)).map (fun b =>
        { bookId := bid, quantity := it.quantity, price := b.price,
          subtotal := b.price * it.quantity }))

/-- Embeds `prisma.book.update({where: {id}, data: {stock: {decrement: q}}})`:
`id` is the primary key, so exactly the row with that id is decremented. -/
def decrementStock (books : List Book) (bid : Nat) (q : ℚ) : List Book :=
  books.map (fun b => if b.id = bid then { b with stock := b.stock - q } else b)

/-- The stock-decrement loop when every `prisma.book.update` succeeds. -/
def decrementAll (items : List Item) (books : List Book) : List Book :=
  items.foldl (fun bs it => decrementStock bs (it.bookId.getD 0) it.quantity) books

/-- The stock-decrement loop with a failure oracle: `failAt = some k` makes
the `k`-th `prisma.book.update` throw (the updates before it have already
committed — the loop runs outside any `prisma.$transaction` scope).
Returns the resulting book table and whether the loop completed. -/
def applyDecrements (failAt : Option Nat) (items : List Item) (books : List Book) :
    List Book × Bool :=
  match items with
  | [] => (books, true)
  | it :: rest =>
    match failAt with
    | some 0 => (books, false)
    | _ =>
      applyDecrements (failAt.map (· - 1)) rest
        (decrementStock books (it.bookId.getD 0) it.quantity)

/-- Embeds `bookIds = items.map(item => item.bookId)`, keeping only present ids
(after validation every id is present). -/
def reqBookIds (items : List Item) : List Nat :=
  items.filterMap (·.bookId)

/-- Embeds `prisma.book.findMany({ where: { id: { in: bookIds } } })`: each stored
row whose id occurs in the request, once, in table order. -/
def fetchedBooks (db : Db) (items : List Item) : List Book :=
  db.books.filter (fun b => (reqBookIds items).contains b.id)

/-- Embeds `createTransaction` (src/controllers/transactionController.ts), with a
failure oracle for the decrement loop.  `prisma.transaction.create` with its
nested `transactionDetails.create` is a single atomic call (one row plus its
details); the per-book `prisma.book.update` calls that follow it are separate
statements, not wrapped in `prisma.$transaction`. -/
def createTransactionF (failAt : Option Nat) (req : CreateReq) (db : Db) :
    CreateRes × Db :=
  match req.userId with
  | none => (.unauthorized, db)
  | some uid =>
    match req.items with
    | none => (.itemsRequired, db)
    | some items =>
      if items.length = 0 then (.itemsRequired, db)
      else if !(items.all itemOk) then (.invalidItemData, db)
      else
        let bookIds := reqBookIds items
        let books := fetchedBooks db items
        if books.length ≠ bookIds.length then (.booksNotFound, db)
        else
          match checkStock books items with
          | some StockErr.missing => (.bookNotFound, db)
          | some (StockErr.insufficient title) => (.insufficientStock title, db)
          | none =>
            let details := mkDetails books items
            let totalAmount := (details.map (·.subtotal)).sum
            let t : Transaction :=
              { id := db.nextTransId, userId := uid,
                totalAmount := totalAmount, details := details }
            let db1 := { db with
              transactions := db.transactions ++ [t],
              nextTransId := db.nextTransId + 1 }
            match applyDecrements failAt items db1.books with
            | (books2, true) => (.created t, { db1 with books := books2 })
            | (books2, false) => (.internalError, { db1 with books := books2 })

/-- Embeds `createTransaction` in the run where every persistence call succeeds. -/
def createTransaction (req : CreateReq) (db : Db) : CreateRes × Db :=
  createTransactionF none req db

/-- Stock of the book with id `bid` (`none` if no such row). -/
def stockOf (db : Db) (bid : Nat) : Option ℚ :=
  (db.books.find? (fun b => b.id = bid)).map (·.stock)

/-- Total quantity requested for book `bid` across the order. -/
def totalQty (items : List Item) (bid : Nat) : ℚ :=
  ((items.filter (fun it => it.bookId = some bid)).map (·.quantity)).sum

/-!
### Statistics (`getTransactionStatistics`)

The controller reads every transaction with
`include: { transactionDetails: { include: { book: { include: { genre: true }}}}}`,
so each detail row arrives enriched with its book's `genreId` and
`genre.name`; that enriched shape is `SDetail`/`STrans` below.
-/

/-- A transaction detail as returned by the statistics query: the stored
`quantity` plus the included `book.genreId` and `book.genre.name`. -/
structure SDetail where
  quantity : ℚ
  genreId : Nat
  genreName : String
deriving DecidableEq, Repr

/-- A transaction as returned by the statistics query. -/
structure STrans where
  totalAmount : ℚ
  details : List SDetail
deriving DecidableEq, Repr

/-- One value of the `genreCount` record: `{ count, name }`, keyed by
`genreId` (kept here as a field, since JS object keys in insertion order
are modelled as an association list). -/
structure GEntry where
  gid : Nat
  name : String
  count : ℚ
deriving DecidableEq, Repr

/-- The most/least-popular payload `{ genreId, genreName, totalTransactions }`. -/
structure GenreStat where
  genreId : Nat
  genreName : String
  totalTransactions : ℚ
deriving DecidableEq, Repr

/-- The statistics response `data` object. -/
structure Stats where
  totalTransactions : Nat
  averageTransaction : ℚ
  mostPopularGenre : Option GenreStat
  leastPopularGenre : Option GenreStat
deriving DecidableEq, Repr

/-- Embeds `if (!genreCount[genreId]) genreCount[genreId] = {count: 0, name};
genreCount[genreId].count += detail.quantity` — a fresh key is appended
(JS string keys keep insertion order), an existing key is bumped in place. -/
def bump (acc : List GEntry) (gid : Nat) (name : String) (q : ℚ) : List GEntry :=
  if acc.any (fun e => e.gid = gid) then
    acc.map (fun e => if e.gid = gid then { e with count := e.count + q } else e)
  else
    acc ++ [{ gid := gid, name := name, count := q }]

/-- The nested `forEach` building `genreCount`. -/
def genreCount (ts : List STrans) : List GEntry :=
  ts.foldl (fun acc t =>
    t.details.foldl (fun acc d => bump acc d.genreId d.genreName d.quantity) acc) []

/-- Embeds `genreEntries.sort((a, b) => b[1].count - a[1].count)`: the entries in
descending count order. -/
def sortedEntries (ts : List STrans) : List GEntry :=
  (genreCount ts).mergeSort (fun a b => decide (b.count ≤ a.count))

/-- Embeds `getTransactionStatistics`: count, average (0 when empty), and the
most/least popular genres read off the descending sort of `genreCount`
(first entry and last entry). -/
def getTransactionStatistics (ts : List STrans) : Stats :=
  let totalTransactions := ts.length
  let totalAmount := ts.foldl (fun s t => s + t.totalAmount) (0 : ℚ)
  let averageTransaction :=
    if totalTransactions > 0 then totalAmount / (totalTransactions : ℚ) else 0
  let sorted := sortedEntries ts
  { totalTransactions := totalTransactions,
    averageTransaction := averageTransaction,
    mostPopularGenre :=
      sorted.head?.map (fun e => ⟨e.gid, e.name, e.count⟩),
    leastPopularGenre :=
      sorted.getLast?.map (fun e => ⟨e.gid, e.name, e.count⟩) }

/-- Popularity of genre `gid`: the sum of `detail.quantity` over every
detail of every transaction whose book belongs to that genre. -/
def genreSum (ts : List STrans) (gid : Nat) : ℚ :=
  (((ts.flatMap (·.details)).filter (fun d => d.genreId = gid)).map (·.quantity)).sum

/-- Proof-side observer: the count recorded for `gid` in a `genreCount`
accumulator (0 when the key is absent). -/
def gcount (acc : List GEntry) (gid : Nat) : ℚ :=
  ((acc.find? (fun e => e.gid = gid)).map (·.count)).getD 0

/-!
### Book CRUD (`createBook` / `updateBook`), the parts relevant to
uniqueness checking.
-/

/-- The body of `POST /books`.  `isbn` is carried to express claims about
requests that contain one, but the controller's destructuring never reads
it (the stored ISBN is generated from the clock). -/
structure CreateBookReq where
  title : String
  writer : String
  publisher : String
  description : String
  publication_year : ℚ
  price : ℚ
  stock_quantity : ℚ
  genre_id : Option Nat
  genre : Option String
  isbn : Option String
deriving DecidableEq, Repr

/-- Outcomes of `createBook`. -/
inductive CreateBookRes where
  /-- Status 400 "All required fields must be provided" -/
  | missingFields
  /-- Status 400 "Book with this title or ISBN already exists" -/
  | conflict
  /-- Status 404 "Genre with id ... not found" -/
  | genreNotFound
  /-- Status 400 "Please provide a genre name or genre_id" -/
  | genreRequired
  /-- Status 201 with the created book -/
  | created (b : Book)
deriving DecidableEq, Repr

/-- Embeds `createBook` (src/controllers/bookController.ts).  `now` models
`Date.now()` (used only to generate the stored ISBN).  Note the
duplicate check is `findFirst({ where: { OR: [{title}, {isbn: title}] } })`:
it compares existing titles *and existing ISBNs* against the new title,
and never consults the request's `isbn` field. -/
def createBook (req : CreateBookReq) (now : Nat) (db : Db) : CreateBookRes × Db :=
  if req.title = "" ∨ req.writer = "" ∨ req.publisher = "" ∨
      req.publication_year = 0 ∨ req.price = 0 ∨ req.stock_quantity = 0 then
    (.missingFields, db)
  else
    match db.books.find? (fun b => b.title = req.title ∨ b.isbn = req.title) with
    | some _ => (.conflict, db)
    | none =>
      let mk : Genre → Db → CreateBookRes × Db := fun g db2 =>
        let b : Book :=
          { id := db2.nextBookId, title := req.title, author := req.writer,
            publisher := req.publisher,
            publicationYear := req.publication_year.floor,
            isbn := "ISBN-" ++ toString now, price := req.price,
            stock := (req.stock_quantity.floor : ℚ), description := req.description,
            genreId := g.id, genreName := g.name }
        (.created b,
          { db2 with books := db2.books ++ [b], nextBookId := db2.nextBookId + 1 })
      match req.genre_id with
      | some gid =>
        match db.genres.find? (fun g => g.id = gid) with
        | none => (.genreNotFound, db)
        | some g => mk g db
      | none =>
        match req.genre with
        | some s =>
          if s.trim = "" then (.genreRequired, db)
          else
            match db.genres.find? (fun g => g.name.toLower = s.trim.toLower) with
            | some g => mk g db
            | none =>
              let g : Genre := { id := db.nextGenreId, name := s.trim }
              mk g { db with genres := db.genres ++ [g],
                             nextGenreId := db.nextGenreId + 1 }
        | none => (.genreRequired, db)

/-- The body of `PATCH /books/:book_id`; `none` is an absent field. -/
structure UpdateBookReq where
  title : Option String
  author : Option String
  publisher : Option String
  publicationYear : Option ℚ
  isbn : Option String
  price : Option ℚ
  stock : Option ℚ
  description : Option String
  genreId : Option Nat
deriving DecidableEq, Repr

/-- Outcomes of `updateBook`. -/
inductive UpdateBookRes where
  /-- Status 404 "Book not found" -/
  | bookNotFound
  /-- Status 400 "Book title already exists" -/
  | conflictTitle
  /-- Status 400 "ISBN already exists" -/
  | conflictIsbn
  /-- Status 404 "Genre not found" -/
  | genreNotFound
  /-- Status 200 with the updated book -/
  | updated (b : Book)
deriving DecidableEq, Repr

/-- JS truthiness of an optional string field. -/
def strTruthy (o : Option String) : Bool :=
  o.getD "" ≠ ""

/-- Apply the spread-guarded `data` object of `prisma.book.update` to one row. -/
def applyUpdate (req : UpdateBookReq) (db : Db) (b : Book) : Book :=
  let b := match req.title with
    | some t => if t ≠ "" then { b with title := t } else b
    | none => b
  let b := match req.author with
    | some a => if a ≠ "" then { b with author := a } else b
    | none => b
  let b := match req.publisher with
    | some p => if p ≠ "" then { b with publisher := p } else b
    | none => b
  let b := match req.publicationYear with
    | some y => if y ≠ 0 then { b with publicationYear := y.floor } else b
    | none => b
  let b := match req.isbn with
    | some s => if s ≠ "" then { b with isbn := s } else b
    | none => b
  let b := match req.price with
    | some p => { b with price := p }
    | none => b
  let b := match req.stock with
    | some s => { b with stock := (s.floor : ℚ) }
    | none => b
  let b := match req.description with
    | some d => { b with description := d }
    | none => b
  match req.genreId with
  | some g =>
    { b with genreId := g,
             genreName := ((db.genres.find? (fun x => x.id = g)).map (·.name)).getD b.genreName }
  | none => b

/-- Embeds `updateBook` (src/controllers/bookController.ts): 404 on unknown id,
then a duplicate-title check (only when a truthy new title differs from the
current one), then the analogous duplicate-ISBN check, then a genre
existence check, then the guarded field update. -/
def updateBook (bookId : Nat) (req : UpdateBookReq) (db : Db) : UpdateBookRes × Db :=
  match db.books.find? (fun b => b.id = bookId) with
  | none => (.bookNotFound, db)
  | some existing =>
    if strTruthy req.title ∧ req.title ≠ some existing.title ∧
        (db.books.find? (fun b => some b.title = req.title)).isSome then
      (.conflictTitle, db)
    else if strTruthy req.isbn ∧ req.isbn ≠ some existing.isbn ∧
        (db.books.find? (fun b => some b.isbn = req.isbn)).isSome then
      (.conflictIsbn, db)
    else if req.genreId.isSome ∧ req.genreId ≠ some existing.genreId ∧
        (db.genres.find? (fun g => some g.id = req.genreId)).isNone then
      (.genreNotFound, db)
    else
      let b2 := applyUpdate req db existing
      (.updated b2,
        { db with books := db.books.map (fun b => if b.id = bookId then b2 else b) })

/-!
### Concrete databases and requests used in closed theorems
-/

/-- Book 1 "A" (isbn "X", price 10, stock 5). -/
def bookA : Book :=
  { id := 1, title := "A", author := "a", publisher := "p",
    publicationYear := 2000, isbn := "X", price := 10, stock := 5,
    description := "", genreId := 1, genreName := "g" }

/-- Book 2 "B" (isbn "Y", price 7, stock 4). -/
def bookB : Book :=
  { id := 2, title := "B", author := "a", publisher := "p",
    publicationYear := 2001, isbn := "Y", price := 7, stock := 4,
    description := "", genreId := 1, genreName := "g" }

/-- A one-book, one-genre database holding `bookA`. -/
def demoDb : Db :=
  { genres := [⟨1, "g"⟩], books := [bookA],
    transactions := [], nextGenreId := 2, nextBookId := 2, nextTransId := 1 }

/-- A two-book database holding `bookA` and `bookB`. -/
def demoDb2 : Db :=
  { demoDb with books := [bookA, bookB], nextBookId := 3 }

/-- A create-book request whose body carries `isbn = "X"`, duplicating the
ISBN of book 1 of `demoDb`, under a fresh title. -/
def isbnDupReq : CreateBookReq :=
  { title := "B", writer := "w", publisher := "p", description := "",
    publication_year := 2000, price := 10, stock_quantity := 5,
    genre_id := some 1, genre := none, isbn := some "X" }

end Bookstore

namespace Bookstore

/-!
### Helper lemmas about the transaction-creation workflow
-/

/-- With no failure injected, the decrement loop completes and computes
`decrementAll`. -/
theorem applyDecrements_none (items : List Item) (books : List Book) :
    applyDecrements none items books = (decrementAll items books, true) := by
  induction items generalizing books with
  | nil => rfl
  | cons it rest ih => simpa [applyDecrements, decrementAll] using ih _

/-- Unfolding `totalQty` over a cons. -/
theorem totalQty_cons (it : Item) (rest : List Item) (bid : Nat) :
    totalQty (it :: rest) bid =
      (if it.bookId = some bid then it.quantity else 0) + totalQty rest bid := by
  by_cases h : it.bookId = some bid <;> simp [totalQty, List.filter_cons, h]

/-- If no item requests `bid`, the total requested quantity is `0`. -/
theorem totalQty_eq_zero (items : List Item) (bid : Nat)
    (h : ∀ it ∈ items, it.bookId ≠ some bid) : totalQty items bid = 0 := by
  induction items with
  | nil => rfl
  | cons hd rest ih =>
    rw [totalQty_cons, if_neg (h hd (List.mem_cons_self hd rest)),
      ih (fun it hit => h it (List.mem_cons_of_mem hd hit)), zero_add]

/-- When the requested ids are pairwise distinct, the total quantity for an
item's book is that item's quantity. -/
theorem totalQty_of_nodup (items : List Item) (it : Item) (bid : Nat)
    (hnd : (reqBookIds items).Nodup) (hmem : it ∈ items)
    (hbid : it.bookId = some bid) : totalQty items bid = it.quantity := by
  induction items with
  | nil => cases hmem
  | cons hd rest ih =>
    rcases List.mem_cons.mp hmem with rfl | hmem2
    · rw [totalQty_cons, if_pos hbid, totalQty_eq_zero rest bid, add_zero]
      intro it2 hit2 hbid2
      rw [reqBookIds, List.filterMap_cons, hbid] at hnd
      exact (List.nodup_cons.mp hnd).1
        (List.mem_filterMap.mpr ⟨it2, hit2, hbid2⟩)
    · have hhd : hd.bookId ≠ some bid := by
        intro hhd
        rw [reqBookIds, List.filterMap_cons, hhd] at hnd
        exact (List.nodup_cons.mp hnd).1
          (List.mem_filterMap.mpr ⟨it, hmem2, hbid⟩)
      have hnd2 : (reqBookIds rest).Nodup := by
        rw [reqBookIds, List.filterMap_cons] at hnd
        cases hcase : hd.bookId with
        | none => rwa [hcase] at hnd
        | some x =>
          rw [hcase] at hnd
          exact (List.nodup_cons.mp hnd).2
      rw [totalQty_cons, if_neg hhd, ih hnd2 hmem2, zero_add]

/-- Lemma: `decrementAll` is a pointwise stock adjustment by `totalQty` (provided
every item's bookId is present, as guaranteed after validation). -/
theorem decrementAll_eq_map (items : List Item) (books : List Book)
    (h : ∀ it ∈ items, it.bookId.isSome) :
    decrementAll items books =
      books.map (fun b => { b with stock := b.stock - totalQty items b.id }) := by
  induction items generalizing books with
  | nil =>
    have hf : (fun b : Book => { b with stock := b.stock - totalQty [] b.id }) = id := by
      funext b
      simp [totalQty]
    simp [decrementAll, hf]
  | cons it rest ih =>
    obtain ⟨bid, hbid⟩ := Option.isSome_iff_exists.mp
      (h it (List.mem_cons_self it rest))
    have step : decrementAll (it :: rest) books =
        decrementAll rest (decrementStock books (it.bookId.getD 0) it.quantity) := by
      simp [decrementAll]
    rw [step, ih _ (fun x hx => h x (List.mem_cons_of_mem it hx)),
      decrementStock, List.map_map]
    refine List.map_congr_left (fun b _ => ?_)
    simp only [Function.comp_apply, hbid, Option.getD_some]
    by_cases hid : b.id = bid
    · rw [if_pos hid]
      show ({ b with stock := b.stock - it.quantity - totalQty rest b.id } : Book) = _
      rw [totalQty_cons, if_pos (by rw [hbid, hid]), Book.mk.injEq]
      refine ⟨rfl, rfl, rfl, rfl, rfl, rfl, rfl, by ring, rfl, rfl, rfl⟩
    · rw [if_neg hid]
      rw [totalQty_cons,
        if_neg (by rw [hbid]; exact fun hc => hid (Option.some.inj hc).symm),
        zero_add]

/-- Looking up a book after `decrementAll` returns the original row with its
stock decreased by the total requested quantity. -/
theorem find?_decrementAll (items : List Item) (books : List Book) (bid : Nat)
    (h : ∀ it ∈ items, it.bookId.isSome) :
    (decrementAll items books).find? (fun b => b.id = bid) =
      (books.find? (fun b => b.id = bid)).map
        (fun b => { b with stock := b.stock - totalQty items b.id }) := by
  rw [decrementAll_eq_map items books h, List.find?_map]
  rfl

/-- If the stock-validation loop returns no error, every item's book resolves
and has enough stock. -/
theorem checkStock_none (books : List Book) (items : List Item)
    (h : checkStock books items = none) :
    ∀ it ∈ items, ∃ b, books.find? (fun b => some b.id = it.bookId) = some b ∧
      it.quantity ≤ b.stock := by
  induction items with
  | nil => exact fun it hit => absurd hit (List.not_mem_nil it)
  | cons hd rest ih =>
    intro it hmem
    rw [checkStock] at h
    cases hfind : books.find? (fun b => some b.id = hd.bookId) with
    | none => rw [hfind] at h; cases h
    | some b =>
      simp only [hfind] at h
      by_cases hlt : b.stock < hd.quantity
      · rw [if_pos hlt] at h; cases h
      · rw [if_neg hlt] at h
        rcases List.mem_cons.mp hmem with rfl | hmem2
        · exact ⟨b, hfind, not_lt.mp hlt⟩
        · exact ih h it hmem2

/-- The ids of the fetched books are pairwise distinct (primary keys are). -/
theorem fetched_ids_nodup (db : Db) (items : List Item)
    (hnd : (db.books.map (·.id)).Nodup) :
    ((fetchedBooks db items).map (·.id)).Nodup :=
  ((List.filter_sublist db.books).map (·.id)).nodup hnd

/-- Every fetched book's id was requested. -/
theorem fetched_ids_sub (db : Db) (items : List Item) :
    ∀ x ∈ (fetchedBooks db items).map (·.id), x ∈ reqBookIds items := by
  intro x hx
  obtain ⟨b, hb, rfl⟩ := List.mem_map.mp hx
  have := (List.mem_filter.mp hb).2
  simpa using this

/-- Counting bound: no more fetched rows than distinct requested ids. -/
theorem fetched_length_le_dedup (db : Db) (items : List Item)
    (hnd : (db.books.map (·.id)).Nodup) :
    (fetchedBooks db items).length ≤ (reqBookIds items).dedup.length := by
  have h1 : ((fetchedBooks db items).map (·.id)).toFinset ⊆
      (reqBookIds items).toFinset := by
    intro x hx
    exact List.mem_toFinset.mpr (fetched_ids_sub db items x (List.mem_toFinset.mp hx))
  have h2 := Finset.card_le_card h1
  rw [List.toFinset_card_of_nodup (fetched_ids_nodup db items hnd),
    List.card_toFinset, List.length_map] at h2
  exact h2

/-- When the fetched count equals the requested count, the requested ids are
pairwise distinct and every requested id has a stored book. -/
theorem fetched_length_eq_inv (db : Db) (items : List Item)
    (hnd : (db.books.map (·.id)).Nodup)
    (hlen : (fetchedBooks db items).length = (reqBookIds items).length) :
    (reqBookIds items).Nodup ∧
      ∀ bid ∈ reqBookIds items, ∃ b ∈ db.books, b.id = bid := by
  have hdedup : (reqBookIds items).dedup.length = (reqBookIds items).length :=
    le_antisymm ((reqBookIds items).dedup_sublist.length_le)
      (hlen ▸ fetched_length_le_dedup db items hnd)
  have heq : (reqBookIds items).dedup = reqBookIds items :=
    (reqBookIds items).dedup_sublist.eq_of_length hdedup
  have hnodup : (reqBookIds items).Nodup := heq ▸ (reqBookIds items).nodup_dedup
  refine ⟨hnodup, ?_⟩
  have hsub : ((fetchedBooks db items).map (·.id)).toFinset ⊆
      (reqBookIds items).toFinset := fun x hx =>
    List.mem_toFinset.mpr (fetched_ids_sub db items x (List.mem_toFinset.mp hx))
  have hcards : (reqBookIds items).toFinset.card ≤
      ((fetchedBooks db items).map (·.id)).toFinset.card := by
    rw [List.toFinset_card_of_nodup (fetched_ids_nodup db items hnd),
      List.toFinset_card_of_nodup hnodup, List.length_map]
    exact le_of_eq hlen.symm
  have hfeq : ((fetchedBooks db items).map (·.id)).toFinset =
      (reqBookIds items).toFinset :=
    Finset.eq_of_subset_of_card_le hsub hcards
  intro bid hbid
  have : bid ∈ (fetchedBooks db items).map (·.id) :=
    List.mem_toFinset.mp (hfeq ▸ List.mem_toFinset.mpr hbid)
  obtain ⟨b, hb, rfl⟩ := List.mem_map.mp this
  exact ⟨b, (List.mem_filter.mp hb).1, rfl⟩

/-- Inversion of a successful `createTransaction` run: the request passed
every validation step and the result state appends the transaction and
applies every stock decrement. -/
theorem create_success_inv {req : CreateReq} {db : Db} {t : Transaction}
    {db' : Db} (h : createTransaction req db = (CreateRes.created t, db')) :
    ∃ uid items, req = ⟨some uid, some items⟩ ∧
      items.length ≠ 0 ∧ items.all itemOk = true ∧
      (fetchedBooks db items).length = (reqBookIds items).length ∧
      checkStock (fetchedBooks db items) items = none ∧
      t = { id := db.nextTransId, userId := uid,
            totalAmount :=
              ((mkDetails (fetchedBooks db items) items).map (·.subtotal)).sum,
            details := mkDetails (fetchedBooks db items) items } ∧
      db' = { db with books := decrementAll items db.books,
                      transactions := db.transactions ++ [t],
                      nextTransId := db.nextTransId + 1 } := by
  obtain ⟨userId, items0⟩ := req
  cases userId with
  | none => simp [createTransaction, createTransactionF] at h
  | some uid =>
    cases items0 with
    | none => simp [createTransaction, createTransactionF] at h
    | some items =>
      refine ⟨uid, items, rfl, ?_⟩
      simp only [createTransaction, createTransactionF] at h
      by_cases h1 : items.length = 0
      · rw [if_pos h1] at h; simp at h
      rw [if_neg h1] at h
      by_cases h2 : items.all itemOk
      case neg => rw [if_pos (by simp [h2])] at h; simp at h
      rw [if_neg (by simp [h2])] at h
      by_cases h3 : (fetchedBooks db items).length = (reqBookIds items).length
      case neg => rw [if_pos h3] at h; simp at h
      rw [if_neg (by simpa using h3)] at h
      cases h4 : checkStock (fetchedBooks db items) items with
      | some e =>
        rw [h4] at h
        cases e <;> simp at h
      | none =>
        rw [h4, applyDecrements_none] at h
        obtain ⟨h5, h6⟩ := Prod.mk.injEq .. ▸ h
        refine ⟨h1, h2, h3, rfl, ?_, ?_⟩
        · exact (CreateRes.created.inj h5).symm
        · rw [← h6, ← (CreateRes.created.inj h5)]

/-- Inversion of a failed `createTransaction` run: if the result is not
`created`, the database is returned unchanged (with no failure injected the
decrement loop cannot throw, so the only outcomes are validation failures). -/
theorem create_fail_inv {req : CreateReq} {db : Db} {r : CreateRes} {db' : Db}
    (h : createTransaction req db = (r, db'))
    (hr : ∀ t, r ≠ CreateRes.created t) : db' = db := by
  obtain ⟨userId, items0⟩ := req
  cases userId with
  | none =>
    simp only [createTransaction, createTransactionF] at h
    exact (Prod.mk.injEq .. ▸ h).2.symm ▸ rfl
  | some uid =>
    cases items0 with
    | none =>
      simp only [createTransaction, createTransactionF] at h
      exact (Prod.mk.injEq .. ▸ h).2.symm ▸ rfl
    | some items =>
      simp only [createTransaction, createTransactionF] at h
      by_cases h1 : items.length = 0
      · rw [if_pos h1] at h
        exact (Prod.mk.injEq .. ▸ h).2.symm ▸ rfl
      rw [if_neg h1] at h
      by_cases h2 : items.all itemOk
      case neg =>
        rw [if_pos (by simp [h2])] at h
        exact (Prod.mk.injEq .. ▸ h).2.symm ▸ rfl
      rw [if_neg (by simp [h2])] at h
      by_cases h3 : (fetchedBooks db items).length = (reqBookIds items).length
      case neg =>
        rw [if_pos h3] at h
        exact (Prod.mk.injEq .. ▸ h).2.symm ▸ rfl
      rw [if_neg (by simpa using h3)] at h
      cases h4 : checkStock (fetchedBooks db items) items with
      | some e =>
        rw [h4] at h
        cases e <;> exact (Prod.mk.injEq .. ▸ h).2.symm ▸ rfl
      | none =>
        rw [h4, applyDecrements_none] at h
        exact absurd (Prod.mk.injEq .. ▸ h).1.symm (hr _)

/-!
### Helper lemmas about the statistics computation
-/

/-- Lemma: `bump` never returns an empty accumulator. -/
theorem bump_ne_nil (acc : List GEntry) (g : Nat) (n : String) (q : ℚ) :
    bump acc g n q ≠ [] := by
  rw [bump]
  split
  · rename_i h
    intro hc
    rw [List.map_eq_nil_iff] at hc
    subst hc
    simp at h
  · simp

/-- Lemma: `find?` by gid commutes with a gid-preserving map. -/
theorem find?_map_gid (acc : List GEntry) (f : GEntry → GEntry)
    (hf : ∀ e, (f e).gid = e.gid) (gid : Nat) :
    (acc.map f).find? (fun e => e.gid = gid) =
      (acc.find? (fun e => e.gid = gid)).map f := by
  induction acc with
  | nil => rfl
  | cons a rest ih =>
    by_cases ha : a.gid = gid
    · rw [List.map_cons, List.find?_cons_of_pos _ (by simp [hf, ha]),
        List.find?_cons_of_pos _ (by simp [ha]), Option.map_some']
    · rw [List.map_cons, List.find?_cons_of_neg _ (by simp [hf, ha]),
        List.find?_cons_of_neg _ (by simp [ha]), ih]

/-- One `bump` adds `q` to the bumped genre's recorded count and leaves the
others unchanged. -/
theorem gcount_bump (acc : List GEntry) (g gid : Nat) (n : String) (q : ℚ) :
    gcount (bump acc g n q) gid = gcount acc gid + (if gid = g then q else 0) := by
  by_cases hany : acc.any (fun e => e.gid = g)
  · rw [bump, if_pos hany, gcount, gcount,
      find?_map_gid acc _ (fun e => by by_cases he : e.gid = g <;> simp [he]) gid]
    cases hfind : acc.find? (fun e => e.gid = gid) with
    | none =>
      have hne : ¬ gid = g := by
        intro hgg
        subst hgg
        obtain ⟨e2, he2, hg2⟩ := List.any_eq_true.mp hany
        exact (List.find?_eq_none.mp hfind e2 he2) hg2
      simp [hne]
    | some e =>
      have hegid : e.gid = gid := by simpa using List.find?_some hfind
      by_cases hgg : gid = g
      · subst hgg
        simp [gcount, hegid]
      · have : ¬ e.gid = g := by rw [hegid]; exact hgg
        simp [gcount, this, hgg]
  · rw [bump, if_neg hany, gcount, gcount, List.find?_append]
    cases hfind : acc.find? (fun e => e.gid = gid) with
    | some e =>
      have hne : ¬ gid = g := by
        intro hgg
        subst hgg
        have hegid : e.gid = gid := by simpa using List.find?_some hfind
        exact hany (List.any_eq_true.mpr
          ⟨e, List.mem_of_find?_eq_some hfind, by simp [hegid]⟩)
      simp [hne]
    | none =>
      simp only [Option.none_or]
      by_cases hgg : gid = g
      · subst hgg
        rw [List.find?_cons_of_pos _ (by simp)]
        simp
      · rw [List.find?_cons_of_neg _
          (by simp only [decide_eq_true_eq]; exact fun hc => hgg hc.symm)]
        simp [hgg]

/-- Folding a detail list accumulates each genre's quantity sum. -/
theorem gcount_foldl_details (ds : List SDetail) (acc : List GEntry) (gid : Nat) :
    gcount (ds.foldl (fun a d => bump a d.genreId d.genreName d.quantity) acc) gid =
      gcount acc gid +
        ((ds.filter (fun d => d.genreId = gid)).map (·.quantity)).sum := by
  induction ds generalizing acc with
  | nil => simp
  | cons d rest ih =>
    rw [List.foldl_cons, ih, gcount_bump]
    by_cases h : d.genreId = gid
    · rw [List.filter_cons_of_pos (by simp [h]), List.map_cons, List.sum_cons,
        if_pos h.symm]
      ring
    · rw [List.filter_cons_of_neg (by simp [h]), if_neg (fun hc => h hc.symm)]
      ring

/-- Folding the transaction list accumulates `genreSum`. -/
theorem gcount_genreCount_aux (ts : List STrans) (acc : List GEntry) (gid : Nat) :
    gcount (ts.foldl (fun a t =>
        t.details.foldl (fun a2 d => bump a2 d.genreId d.genreName d.quantity) a)
      acc) gid =
      gcount acc gid + genreSum ts gid := by
  induction ts generalizing acc with
  | nil => simp [genreSum]
  | cons t rest ih =>
    rw [List.foldl_cons, ih, gcount_foldl_details]
    have hsplit : genreSum (t :: rest) gid =
        ((t.details.filter (fun d => d.genreId = gid)).map (·.quantity)).sum +
          genreSum rest gid := by
      simp [genreSum, List.flatMap_cons, List.filter_append]
    rw [hsplit]
    ring

/-- The recorded count of every genre equals its quantity sum over the
transactions. -/
theorem gcount_genreCount (ts : List STrans) (gid : Nat) :
    gcount (genreCount ts) gid = genreSum ts gid := by
  have h := gcount_genreCount_aux ts [] gid
  rw [genreCount]
  simpa [gcount] using h

/-- Lemma: `bump` preserves distinctness of the recorded genre ids. -/
theorem bump_gids_nodup (acc : List GEntry) (g : Nat) (n : String) (q : ℚ)
    (h : (acc.map (·.gid)).Nodup) : ((bump acc g n q).map (·.gid)).Nodup := by
  rw [bump]
  split
  · rename_i hany
    have hmap : (acc.map (fun e =>
        if e.gid = g then { e with count := e.count + q } else e)).map (·.gid) =
        acc.map (·.gid) := by
      rw [List.map_map]
      exact List.map_congr_left
        (fun e _ => by by_cases he : e.gid = g <;> simp [he])
    rwa [hmap]
  · rename_i hany
    rw [List.map_append]
    have hnotin : g ∉ acc.map (·.gid) := by
      intro hmem
      obtain ⟨e, he, heg⟩ := List.mem_map.mp hmem
      exact hany (List.any_eq_true.mpr ⟨e, he, by simp [heg]⟩)
    rw [List.nodup_append]
    exact ⟨h, List.nodup_singleton g, by simpa using hnotin⟩

/-- The detail fold preserves distinctness of recorded genre ids. -/
theorem foldl_details_gids_nodup (ds : List SDetail) (acc : List GEntry)
    (h : (acc.map (·.gid)).Nodup) :
    ((ds.foldl (fun a d => bump a d.genreId d.genreName d.quantity) acc).map
      (·.gid)).Nodup := by
  induction ds generalizing acc with
  | nil => exact h
  | cons d rest ih => exact ih _ (bump_gids_nodup acc _ _ _ h)

/-- Lemma: `genreCount` records each genre id at most once. -/
theorem genreCount_gids_nodup (ts : List STrans) :
    ((genreCount ts).map (·.gid)).Nodup := by
  rw [genreCount]
  have hgen : ∀ acc : List GEntry, (acc.map (·.gid)).Nodup →
      ((ts.foldl (fun a t =>
        t.details.foldl (fun a2 d => bump a2 d.genreId d.genreName d.quantity) a)
        acc).map (·.gid)).Nodup := by
    induction ts with
    | nil => exact fun acc h => h
    | cons t rest ih =>
      intro acc h
      exact ih _ (foldl_details_gids_nodup t.details acc h)
  exact hgen [] (by simp)

/-- The detail fold never empties a non-empty accumulator, and a non-empty
detail list makes the accumulator non-empty. -/
theorem foldl_details_ne_nil (ds : List SDetail) (acc : List GEntry)
    (h : acc ≠ [] ∨ ds ≠ []) :
    ds.foldl (fun a d => bump a d.genreId d.genreName d.quantity) acc ≠ [] := by
  induction ds generalizing acc with
  | nil =>
    rcases h with h | h
    · exact h
    · cases h rfl
  | cons d rest ih =>
    rw [List.foldl_cons]
    exact ih _ (Or.inl (bump_ne_nil acc _ _ _))

/-- The transaction fold yields a non-empty accumulator as soon as some
transaction has a detail. -/
theorem genreCount_fold_ne_nil (ts : List STrans) (acc : List GEntry)
    (h : acc ≠ [] ∨ ∃ t ∈ ts, t.details ≠ []) :
    ts.foldl (fun a t =>
      t.details.foldl (fun a2 d => bump a2 d.genreId d.genreName d.quantity) a)
      acc ≠ [] := by
  induction ts generalizing acc with
  | nil =>
    rcases h with h | ⟨t, ht, -⟩
    · exact h
    · cases ht
  | cons t rest ih =>
    rw [List.foldl_cons]
    rcases h with h | ⟨t2, ht2, hd2⟩
    · exact ih _ (Or.inl (foldl_details_ne_nil t.details acc (Or.inl h)))
    · rcases List.mem_cons.mp ht2 with rfl | hmem
      · exact ih _ (Or.inl (foldl_details_ne_nil t2.details acc (Or.inr hd2)))
      · exact ih _ (Or.inr ⟨t2, hmem, hd2⟩)

/-- Lemma: `bump` preserves key presence and establishes the bumped key. -/
theorem bump_isSome (acc : List GEntry) (g gid : Nat) (n : String) (q : ℚ)
    (h : ((acc.find? (fun e => e.gid = gid)).isSome) ∨ gid = g) :
    ((bump acc g n q).find? (fun e => e.gid = gid)).isSome := by
  rw [List.find?_isSome]
  rcases h with h | rfl
  · rw [List.find?_isSome] at h
    obtain ⟨e, he, hp⟩ := h
    rw [bump]
    split
    · refine ⟨_, List.mem_map.mpr ⟨e, he, rfl⟩, ?_⟩
      by_cases hc : e.gid = g <;> simp_all
    · exact ⟨e, List.mem_append.mpr (Or.inl he), hp⟩
  · rw [bump]
    split
    · rename_i hany
      obtain ⟨e, he, hpg⟩ := List.any_eq_true.mp hany
      refine ⟨_, List.mem_map.mpr ⟨e, he, rfl⟩, ?_⟩
      have hg : e.gid = gid := by simpa using hpg
      simp [hg]
    · exact ⟨⟨gid, n, q⟩, List.mem_append.mpr (Or.inr (by simp)), by simp⟩

/-- The detail fold records every genre id occurring in the detail list. -/
theorem presence_foldl_details (ds : List SDetail) (acc : List GEntry) (gid : Nat)
    (h : ((acc.find? (fun e => e.gid = gid)).isSome) ∨ ∃ d ∈ ds, d.genreId = gid) :
    (((ds.foldl (fun a d => bump a d.genreId d.genreName d.quantity) acc).find?
      (fun e => e.gid = gid)).isSome) := by
  induction ds generalizing acc with
  | nil =>
    rcases h with h | ⟨d, hd, -⟩
    · exact h
    · cases hd
  | cons d rest ih =>
    rw [List.foldl_cons]
    rcases h with h | ⟨d2, hd2, hg2⟩
    · exact ih _ (Or.inl (bump_isSome acc _ gid _ _ (Or.inl h)))
    · rcases List.mem_cons.mp hd2 with rfl | hmem
      · exact ih _ (Or.inl (bump_isSome acc _ gid _ _ (Or.inr hg2.symm)))
      · exact ih _ (Or.inr ⟨d2, hmem, hg2⟩)

/-- The transaction fold records every genre id occurring in any detail. -/
theorem presence_fold (ts : List STrans) (acc : List GEntry) (gid : Nat)
    (h : ((acc.find? (fun e => e.gid = gid)).isSome) ∨
      ∃ t ∈ ts, ∃ d ∈ t.details, d.genreId = gid) :
    ((ts.foldl (fun a t =>
      t.details.foldl (fun a2 d => bump a2 d.genreId d.genreName d.quantity) a)
      acc).find? (fun e => e.gid = gid)).isSome := by
  induction ts generalizing acc with
  | nil =>
    rcases h with h | ⟨t, ht, -⟩
    · exact h
    · cases ht
  | cons t rest ih =>
    rw [List.foldl_cons]
    rcases h with h | ⟨t2, ht2, d2, hd2, hg2⟩
    · exact ih _ (Or.inl (presence_foldl_details t.details acc gid (Or.inl h)))
    · rcases List.mem_cons.mp ht2 with rfl | hmem
      · exact ih _
          (Or.inl (presence_foldl_details t2.details acc gid (Or.inr ⟨d2, hd2, hg2⟩)))
      · exact ih _ (Or.inr ⟨t2, hmem, d2, hd2, hg2⟩)

/-- On an accumulator with distinct genre ids, `find?` by a member's gid
returns that member. -/
theorem find?_of_mem_nodup (acc : List GEntry) (e : GEntry)
    (hnd : (acc.map (·.gid)).Nodup) (he : e ∈ acc) :
    acc.find? (fun x => x.gid = e.gid) = some e := by
  induction acc with
  | nil => cases he
  | cons a rest ih =>
    rw [List.map_cons, List.nodup_cons] at hnd
    rcases List.mem_cons.mp he with rfl | hmem
    · exact List.find?_cons_of_pos _ (by simp)
    · have hne : ¬ a.gid = e.gid := by
        intro hc
        exact hnd.1 (hc ▸ List.mem_map.mpr ⟨e, hmem, rfl⟩)
      rw [List.find?_cons_of_neg _ (by simp [hne])]
      exact ih hnd.2 hmem

/-- In a descending-sorted entry list the head has the greatest count. -/
theorem pairwise_head_max (l : List GEntry)
    (h : l.Pairwise (fun a b => b.count ≤ a.count)) (hne : l ≠ []) :
    ∀ x ∈ l, x.count ≤ (l.head hne).count := by
  cases l with
  | nil => cases hne rfl
  | cons a rest =>
    intro x hx
    rcases List.mem_cons.mp hx with rfl | hx2
    · exact le_refl _
    · exact (List.pairwise_cons.mp h).1 x hx2

/-- In a descending-sorted entry list the last element has the least count. -/
theorem pairwise_getLast_min (l : List GEntry)
    (h : l.Pairwise (fun a b => b.count ≤ a.count)) :
    ∀ y, l.getLast? = some y → ∀ x ∈ l, y.count ≤ x.count := by
  induction l with
  | nil =>
    intro y hy
    cases hy
  | cons a rest ih =>
    intro y hy x hx
    cases rest with
    | nil =>
      obtain rfl : a = y := by simpa using hy
      obtain rfl : x = a := by simpa using hx
      exact le_refl _
    | cons b rest2 =>
      rw [List.getLast?_cons_cons] at hy
      rcases List.mem_cons.mp hx with rfl | hx2
      · exact (List.pairwise_cons.mp h).1 y (List.mem_of_getLast?_eq_some hy)
      · exact ih (List.pairwise_cons.mp h).2 y hy x hx2

/-- The JS descending sort, as `mergeSort`, yields a descending pairwise
chain of counts. -/
theorem sortedEntries_pairwise (ts : List STrans) :
    (sortedEntries ts).Pairwise (fun a b => b.count ≤ a.count) := by
  have h := @List.sorted_mergeSort GEntry
    (fun a b => decide (b.count ≤ a.count))
    (fun a b c h1 h2 => by
      simp only [decide_eq_true_eq] at h1 h2 ⊢
      exact le_trans h2 h1)
    (fun a b => by
      simp only [Bool.or_eq_true, decide_eq_true_eq]
      exact le_total b.count a.count)
    (genreCount ts)
  exact h.imp (fun hab => by simpa using hab)

/-- The sorted entry list is a permutation of `genreCount`. -/
theorem sortedEntries_perm (ts : List STrans) :
    (sortedEntries ts).Perm (genreCount ts) :=
  List.mergeSort_perm (genreCount ts) _

/-!
### Claim theorems
-/

/-- Claim C1: (code bug exhibit).  The same validated one-line order (user 1
buys 2 of book 1, stock 5) succeeds when every persistence call succeeds,
but when the first `prisma.book.update` of the decrement loop throws —
after `prisma.transaction.create` has already committed — the run ends in
the catch-all 500 with the `Transaction` row (and its detail) persisted
while book 1's stock is still 5: the three effects are not applied
atomically, because the mutation phase is not wrapped in
`prisma.$transaction`. -/
theorem C1_no_atomic_scope :
    (createTransaction ⟨some 1, some [⟨some 1, 2⟩]⟩ demoDb).1 =
      CreateRes.created ⟨1, 1, 20, [⟨1, 2, 10, 20⟩]⟩ ∧
    createTransactionF (some 0) ⟨some 1, some [⟨some 1, 2⟩]⟩ demoDb =
      (CreateRes.internalError,
        { demoDb with transactions := [⟨1, 1, 20, [⟨1, 2, 10, 20⟩]⟩],
                      nextTransId := 2 }) := by
  constructor <;>
    norm_num [createTransaction, createTransactionF, demoDb, bookA, itemOk,
      reqBookIds, fetchedBooks, checkStock, mkDetails, decrementStock,
      applyDecrements, List.filterMap, List.find?, List.filter]

/-- Claim C7:.  Statistics over zero transactions are exactly
`{totalTransactions := 0, averageTransaction := 0, mostPopularGenre := null,
leastPopularGenre := null}`. -/
theorem C7_empty_statistics :
    getTransactionStatistics [] = ⟨0, 0, none, none⟩ := by
  simp [getTransactionStatistics, sortedEntries, genreCount]

/-- Claim C4: (counterexample).  The order `[{bookId := 1, quantity := 3/2}]` has
a positive non-integer quantity, yet `createTransaction` does not reject it
with the 400 "Invalid item data" response: per-item validation only tests
`!item.bookId || !item.quantity || item.quantity <= 0`, so the order goes
through and creates a transaction with a fractional quantity. -/
theorem C4_counterexample :
    (0 : ℚ) < 3/2 ∧ (∀ n : ℤ, (3/2 : ℚ) ≠ (n : ℚ)) ∧
    (createTransaction ⟨some 1, some [⟨some 1, 3/2⟩]⟩ demoDb).1 =
      CreateRes.created ⟨1, 1, 15, [⟨1, 3/2, 10, 15⟩]⟩ := by
  refine ⟨by norm_num, fun n h => ?_, ?_⟩
  · have h2 : (3 : ℚ) = 2 * n := by field_simp at h; linarith
    have h3 : (3 : ℤ) = 2 * n := by exact_mod_cast h2
    omega
  · norm_num [createTransaction, createTransactionF, demoDb, bookA, itemOk,
      reqBookIds, fetchedBooks, checkStock, mkDetails, decrementStock,
      applyDecrements, List.filterMap, List.find?, List.filter]

/-- Claim C4: (amended).  `createTransaction` fails with the 400
"Items are required" response when `items` is missing/non-array or empty,
and with the 400 "Invalid item data" response when some entry has a missing
`bookId` or a quantity `≤ 0`; positive non-integer quantities are not
rejected (see the counterexample). -/
theorem C4_invalid_input (uid : Nat) (db : Db) :
    (∀ items : Option (List Item), items = none ∨ items = some [] →
      createTransaction ⟨some uid, items⟩ db = (CreateRes.itemsRequired, db)) ∧
    (∀ items : List Item, items ≠ [] →
      (∃ it ∈ items, it.bookId = none ∨ it.quantity ≤ 0) →
      createTransaction ⟨some uid, some items⟩ db =
        (CreateRes.invalidItemData, db)) := by
  constructor
  · rintro items (rfl | rfl) <;> rfl
  · rintro items hne ⟨it, hmem, hbad⟩
    have hall : items.all itemOk = false := by
      rw [Bool.eq_false_iff]
      intro hAll
      have hit := List.all_eq_true.mp hAll it hmem
      simp only [itemOk, Bool.and_eq_true, decide_eq_true_eq] at hit
      rcases hbad with hb | hq
      · rw [hb] at hit
        simp at hit
      · exact absurd hit.2 (not_lt.mpr hq)
    simp only [createTransaction, createTransactionF]
    rw [if_neg (by simpa using hne), if_pos (by simp [hall])]

/-- Witness for `C4_invalid_input` at `uid = 1`, the empty list and a
one-item list with quantity `0`. -/
theorem C4_invalid_input_witness :
    createTransaction ⟨some 1, some []⟩ demoDb =
      (CreateRes.itemsRequired, demoDb) ∧
    createTransaction ⟨some 1, some [⟨some 1, 0⟩]⟩ demoDb =
      (CreateRes.invalidItemData, demoDb) :=
  ⟨(C4_invalid_input 1 demoDb).1 (some []) (Or.inr rfl),
   (C4_invalid_input 1 demoDb).2 [⟨some 1, 0⟩] (by decide)
     ⟨⟨some 1, 0⟩, by decide, Or.inr (by decide)⟩⟩

/-- Claim C9: (counterexample).  `createBook` never reads the request's `isbn`:
on `demoDb` (book 1 has ISBN "X") the request `isbnDupReq` carries
`isbn = "X"` and a fresh title, and the operation is not rejected — a second
book row is created (with a generated ISBN), contradicting the claim that a
create request whose ISBN equals an existing book's ISBN is rejected with a
conflict and no record created. -/
theorem C9_counterexample :
    isbnDupReq.isbn = some "X" ∧
    (demoDb.books.map (·.isbn)).contains "X" = true ∧
    (∀ b ∈ demoDb.books, b.title ≠ isbnDupReq.title) ∧
    (createBook isbnDupReq 7 demoDb).2.books.length =
      demoDb.books.length + 1 ∧
    (createBook isbnDupReq 7 demoDb).1 ≠ CreateBookRes.conflict := by
  decide

/-- Claim C9: (amended).  The uniqueness checking the code actually performs:
`createBook` rejects (400, database unchanged) whenever the requested title
equals an existing book's title *or an existing book's ISBN* (its duplicate
query is `OR: [{title}, {isbn: title}]`); it never reads a request ISBN (the
stored ISBN is generated), so create-time ISBN uniqueness against the
request is not enforced (see the counterexample).  `updateBook` rejects a
truthy changed title that equals another book's title, and any update whose
truthy changed ISBN equals another book's ISBN — the latter with the ISBN
conflict, or with the title conflict when a duplicate changed title is also
present — in every case a 400 response with no modification. -/
theorem C9_uniqueness :
    (∀ req now db, ¬ (req.title = "" ∨ req.writer = "" ∨ req.publisher = "" ∨
        req.publication_year = 0 ∨ req.price = 0 ∨ req.stock_quantity = 0) →
      (∃ b ∈ db.books, b.title = req.title ∨ b.isbn = req.title) →
      createBook req now db = (CreateBookRes.conflict, db)) ∧
    (∀ bid req db e, db.books.find? (fun b => b.id = bid) = some e →
      strTruthy req.title →
      req.title ≠ some e.title →
      (∃ b ∈ db.books, some b.title = req.title) →
      updateBook bid req db = (UpdateBookRes.conflictTitle, db)) ∧
    (∀ bid req db e, db.books.find? (fun b => b.id = bid) = some e →
      strTruthy req.isbn →
      req.isbn ≠ some e.isbn →
      (∃ b ∈ db.books, some b.isbn = req.isbn) →
      (updateBook bid req db).2 = db ∧
        ((updateBook bid req db).1 = UpdateBookRes.conflictTitle ∨
          (updateBook bid req db).1 = UpdateBookRes.conflictIsbn)) := by
  refine ⟨?_, ?_, ?_⟩
  · rintro req now db hreq ⟨b, hb, hor⟩
    have hsome : (db.books.find? (fun b =>
        decide (b.title = req.title ∨ b.isbn = req.title))).isSome := by
      exact List.find?_isSome.mpr ⟨b, hb, decide_eq_true hor⟩
    rcases Option.isSome_iff_exists.mp hsome with ⟨b', hb'⟩
    simp only [createBook]
    rw [if_neg hreq, hb']
  · rintro bid req db e hfind ht hne ⟨b, hb, hbt⟩
    have hsome : (db.books.find? (fun b => decide (some b.title = req.title))).isSome :=
      List.find?_isSome.mpr ⟨b, hb, decide_eq_true hbt⟩
    simp only [updateBook, hfind]
    rw [if_pos ⟨ht, hne, hsome⟩]
  · rintro bid req db e hfind hi hne ⟨b, hb, hbi⟩
    have hsome : (db.books.find? (fun b => decide (some b.isbn = req.isbn))).isSome :=
      List.find?_isSome.mpr ⟨b, hb, decide_eq_true hbi⟩
    simp only [updateBook, hfind]
    split
    · exact ⟨rfl, Or.inl rfl⟩
    · rw [if_pos ⟨hi, hne, hsome⟩]
      exact ⟨rfl, Or.inr rfl⟩

/-- Witness for `C9_uniqueness`: a duplicate-title create on `demoDb`, a
duplicate-title update and a duplicate-ISBN update on `demoDb2`. -/
theorem C9_uniqueness_witness :
    createBook ⟨"A", "w", "p", "", 2000, 10, 5, some 1, none, none⟩ 7 demoDb =
      (CreateBookRes.conflict, demoDb) ∧
    updateBook 1 ⟨some "B", none, none, none, none, none, none, none, none⟩ demoDb2 =
      (UpdateBookRes.conflictTitle, demoDb2) ∧
    (updateBook 1 ⟨none, none, none, none, some "Y", none, none, none, none⟩
        demoDb2).2 = demoDb2 ∧
    ((updateBook 1 ⟨none, none, none, none, some "Y", none, none, none, none⟩
        demoDb2).1 = UpdateBookRes.conflictTitle ∨
      (updateBook 1 ⟨none, none, none, none, some "Y", none, none, none, none⟩
        demoDb2).1 = UpdateBookRes.conflictIsbn) := by
  refine ⟨C9_uniqueness.1 _ 7 demoDb (by decide) ⟨bookA, by decide, by decide⟩,
    C9_uniqueness.2.1 1 _ demoDb2 bookA (by decide) (by decide) (by decide)
      ⟨bookB, by decide, by decide⟩,
    (C9_uniqueness.2.2 1 _ demoDb2 bookA (by decide) (by decide) (by decide)
      ⟨bookB, by decide, by decide⟩).1,
    (C9_uniqueness.2.2 1 _ demoDb2 bookA (by decide) (by decide) (by decide)
      ⟨bookB, by decide, by decide⟩).2⟩

/-- The reference successful run used by witnesses: user 1 buys 2 of book 1
on `demoDb`. -/
theorem demoRun :
    createTransaction ⟨some 1, some [⟨some 1, 2⟩]⟩ demoDb =
      (CreateRes.created ⟨1, 1, 20, [⟨1, 2, 10, 20⟩]⟩,
        { demoDb with books := [{ bookA with stock := 3 }],
                      transactions := [⟨1, 1, 20, [⟨1, 2, 10, 20⟩]⟩],
                      nextTransId := 2 }) := by
  norm_num [createTransaction, createTransactionF, demoDb, bookA, itemOk,
    reqBookIds, fetchedBooks, checkStock, mkDetails, decrementStock,
    applyDecrements, List.filterMap, List.find?, List.filter]

/-- The reference failing run used by witnesses: book 9 does not exist. -/
theorem demoRunMissing :
    createTransaction ⟨some 1, some [⟨some 9, 1⟩]⟩ demoDb =
      (CreateRes.booksNotFound, demoDb) := by
  norm_num [createTransaction, createTransactionF, demoDb, bookA, itemOk,
    reqBookIds, fetchedBooks, checkStock, mkDetails, decrementStock,
    applyDecrements, List.filterMap, List.find?, List.filter]

/-- Claim C2:.  On every successful `createTransaction` run the created
transaction's `totalAmount` is the sum of its details' subtotals, every
detail satisfies `subtotal = price * quantity`, and every detail's price is
the snapshot of a stored book's price (the book with the detail's id). -/
theorem C2_totals (req : CreateReq) (db : Db) (t : Transaction) (db2 : Db)
    (h : createTransaction req db = (CreateRes.created t, db2)) :
    t.totalAmount = (t.details.map (·.subtotal)).sum ∧
    ∀ d ∈ t.details, d.subtotal = d.price * d.quantity ∧
      ∃ b ∈ db.books, b.id = d.bookId ∧ b.price = d.price := by
  obtain ⟨uid, items, -, -, -, -, -, ht, -⟩ := create_success_inv h
  subst ht
  refine ⟨rfl, ?_⟩
  intro d hd
  simp only [mkDetails, List.mem_filterMap] at hd
  obtain ⟨it, hit, hmk⟩ := hd
  split at hmk
  · cases hmk
  · rename_i bid hb
    obtain ⟨b, hfind, hdd⟩ := Option.map_eq_some'.mp hmk
    subst hdd
    have hmem : b ∈ db.books :=
      (List.mem_filter.mp (List.mem_of_find?_eq_some hfind)).1
    have hbid : b.id = bid := by simpa using List.find?_some hfind
    exact ⟨rfl, b, hmem, hbid, rfl⟩

/-- Witness for `C2_totals` on the run `demoRun`. -/
theorem C2_totals_witness :
    (⟨1, 1, 20, [⟨1, 2, 10, 20⟩]⟩ : Transaction).totalAmount =
      ((⟨1, 1, 20, [⟨1, 2, 10, 20⟩]⟩ : Transaction).details.map (·.subtotal)).sum ∧
    ∀ d ∈ (⟨1, 1, 20, [⟨1, 2, 10, 20⟩]⟩ : Transaction).details,
      d.subtotal = d.price * d.quantity ∧
      ∃ b ∈ demoDb.books, b.id = d.bookId ∧ b.price = d.price :=
  C2_totals ⟨some 1, some [⟨some 1, 2⟩]⟩ demoDb _ _ demoRun

/-- Claim C3:.  On a database with distinct primary keys: a successful run
decrements every ordered book's stock by exactly the quantity ordered for
it, and any run that does not end in `created` (all the validation
failures) leaves the database — stocks, transactions, details — unchanged. -/
theorem C3_stock_change (req : CreateReq) (db : Db)
    (hnd : (db.books.map (·.id)).Nodup) :
    (∀ t db2 items, createTransaction req db = (CreateRes.created t, db2) →
      req.items = some items →
      ∀ it ∈ items, ∀ bid, it.bookId = some bid →
        stockOf db2 bid = (stockOf db bid).map (fun s => s - it.quantity)) ∧
    (∀ r db2, createTransaction req db = (r, db2) →
      (∀ t, r ≠ CreateRes.created t) → db2 = db) := by
  constructor
  · intro t db2 items h hitems it hit bid hbid
    obtain ⟨uid, items2, heq, h1, h2, h3, h4, ht, hdb⟩ := create_success_inv h
    rw [heq] at hitems
    obtain rfl := Option.some.inj hitems
    have hall : ∀ x ∈ items2, (x.bookId).isSome := by
      intro x hx
      have hx2 := List.all_eq_true.mp h2 x hx
      simp only [itemOk, Bool.and_eq_true] at hx2
      exact hx2.1
    have hnodup : (reqBookIds items2).Nodup :=
      (fetched_length_eq_inv db items2 hnd h3).1
    have hbooks : db2.books = decrementAll items2 db.books := by rw [hdb]
    rw [stockOf, stockOf, hbooks, find?_decrementAll items2 db.books bid hall]
    cases hfind : db.books.find? (fun b => b.id = bid) with
    | none => rfl
    | some b =>
      have hb : b.id = bid := by simpa using List.find?_some hfind
      simp only [Option.map_some']
      congr 1
      show b.stock - totalQty items2 b.id = b.stock - it.quantity
      rw [hb, totalQty_of_nodup items2 it bid hnodup hit hbid]
  · intro r db2 h hr
    exact create_fail_inv h hr

/-- Witness for `C3_stock_change`: the successful run `demoRun` takes book
1 from stock 5 to stock 3, and the failing run `demoRunMissing` leaves the
database unchanged. -/
theorem C3_stock_change_witness :
    stockOf ({ demoDb with books := [{ bookA with stock := 3 }],
                           transactions := [⟨1, 1, 20, [⟨1, 2, 10, 20⟩]⟩],
                           nextTransId := 2 }) 1 =
      (stockOf demoDb 1).map (fun s => s - 2) ∧
    demoDb = demoDb :=
  ⟨(C3_stock_change ⟨some 1, some [⟨some 1, 2⟩]⟩ demoDb (by decide)).1
      ⟨1, 1, 20, [⟨1, 2, 10, 20⟩]⟩ _ [⟨some 1, 2⟩] demoRun rfl
      ⟨some 1, 2⟩ (by decide) 1 rfl,
   (C3_stock_change ⟨some 1, some [⟨some 9, 1⟩]⟩ demoDb (by decide)).2
      CreateRes.booksNotFound demoDb demoRunMissing
      (fun t ht => CreateRes.noConfusion ht)⟩

/-- Claim C5:.  A well-formed order (authenticated, non-empty, items valid)
that references a bookId with no stored record always fails with the 404
"One or more books not found" response, the database unchanged — the stock
check is never reached. -/
theorem C5_missing_book (uid : Nat) (items : List Item) (db : Db) (bid : Nat)
    (hnd : (db.books.map (·.id)).Nodup)
    (hne : items ≠ []) (hok : items.all itemOk = true)
    (hreq : ∃ it ∈ items, it.bookId = some bid)
    (hmiss : ∀ b ∈ db.books, b.id ≠ bid) :
    createTransaction ⟨some uid, some items⟩ db =
      (CreateRes.booksNotFound, db) := by
  have hbid : bid ∈ reqBookIds items := List.mem_filterMap.mpr hreq
  have hsubErase : ((fetchedBooks db items).map (·.id)).toFinset ⊆
      (reqBookIds items).toFinset.erase bid := by
    intro x hx
    have hxmem := List.mem_toFinset.mp hx
    obtain ⟨b, hb, rfl⟩ := List.mem_map.mp hxmem
    exact Finset.mem_erase.mpr ⟨hmiss b (List.mem_filter.mp hb).1,
      List.mem_toFinset.mpr (fetched_ids_sub db items _ hxmem)⟩
  have hlt : (fetchedBooks db items).length < (reqBookIds items).length := by
    have h1 : (fetchedBooks db items).length ≤
        ((reqBookIds items).toFinset.erase bid).card := by
      have h0 := Finset.card_le_card hsubErase
      rwa [List.toFinset_card_of_nodup (fetched_ids_nodup db items hnd),
        List.length_map] at h0
    have h2 : ((reqBookIds items).toFinset.erase bid).card <
        (reqBookIds items).toFinset.card :=
      Finset.card_erase_lt_of_mem (List.mem_toFinset.mpr hbid)
    have h3 : (reqBookIds items).toFinset.card ≤ (reqBookIds items).length :=
      List.toFinset_card_le _
    omega
  simp only [createTransaction, createTransactionF]
  rw [if_neg (by simpa using hne), if_neg (by simp [hok]),
    if_pos (Nat.ne_of_lt hlt)]

/-- Witness for `C5_missing_book`: ordering the nonexistent book 9. -/
theorem C5_missing_book_witness :
    createTransaction ⟨some 1, some [⟨some 9, 1⟩]⟩ demoDb =
      (CreateRes.booksNotFound, demoDb) :=
  C5_missing_book 1 [⟨some 9, 1⟩] demoDb 9 (by decide) (by decide) (by decide)
    ⟨⟨some 9, 1⟩, by decide, rfl⟩ (by decide)

/-- Claim C6:.  No successful order decrements a book by more than its fetched
stock: on every successful run, for every stored book that the order
references, the total quantity requested for it across the whole order is at
most its (pre-decrement) stock.  (Orders naming the same book twice never
succeed — see C10 — so on successful runs this total is one line's
quantity, validated against the fetched stock.) -/
theorem C6_no_overdecrement (uid : Nat) (items : List Item) (db : Db)
    (t : Transaction) (db2 : Db)
    (hnd : (db.books.map (·.id)).Nodup)
    (h : createTransaction ⟨some uid, some items⟩ db =
      (CreateRes.created t, db2)) :
    ∀ b ∈ db.books, b.id ∈ reqBookIds items →
      totalQty items b.id ≤ b.stock := by
  obtain ⟨uid2, items2, heq, h1, h2, h3, h4, -, -⟩ := create_success_inv h
  injection heq with e1 e2
  obtain rfl := Option.some.inj e1
  obtain rfl := Option.some.inj e2
  have hnodup : (reqBookIds items).Nodup :=
    (fetched_length_eq_inv db items hnd h3).1
  intro b hb hbid
  obtain ⟨it, hit, hitb⟩ := List.mem_filterMap.mp hbid
  rw [totalQty_of_nodup items it b.id hnodup hit hitb]
  obtain ⟨b2, hfind, hle⟩ := checkStock_none _ _ h4 it hit
  have hb2id : some b2.id = it.bookId := by simpa using List.find?_some hfind
  have hid : b2.id = b.id := by
    rw [hitb] at hb2id
    exact Option.some.inj hb2id
  have hb2mem : b2 ∈ db.books :=
    (List.mem_filter.mp (List.mem_of_find?_eq_some hfind)).1
  obtain rfl := List.inj_on_of_nodup_map hnd hb2mem hb hid
  exact hle

/-- Witness for `C6_no_overdecrement` on the run `demoRun`. -/
theorem C6_no_overdecrement_witness :
    totalQty [⟨some 1, 2⟩] bookA.id ≤ bookA.stock :=
  C6_no_overdecrement 1 [⟨some 1, 2⟩] demoDb ⟨1, 1, 20, [⟨1, 2, 10, 20⟩]⟩ _
    (by decide) demoRun bookA (by decide) (by decide)

/-- Claim C10:.  An authenticated, item-validated order that names the same
bookId on more than one line always fails with the 404 "One or more books
not found" response (database unchanged), whether or not the books exist:
`findMany` returns each matching row once, so the fetched count can never
reach the non-deduplicated id-list length. -/
theorem C10_duplicate_ids (uid : Nat) (items : List Item) (db : Db)
    (hnd : (db.books.map (·.id)).Nodup)
    (hne : items ≠ []) (hok : items.all itemOk = true)
    (hdup : ¬ (reqBookIds items).Nodup) :
    createTransaction ⟨some uid, some items⟩ db =
      (CreateRes.booksNotFound, db) := by
  have hlt : (fetchedBooks db items).length < (reqBookIds items).length := by
    have h1 := fetched_length_le_dedup db items hnd
    have h2 : (reqBookIds items).dedup.length < (reqBookIds items).length := by
      rcases lt_or_eq_of_le (reqBookIds items).dedup_sublist.length_le with
        hlt2 | heq
      · exact hlt2
      · exact absurd ((reqBookIds items).dedup_sublist.eq_of_length heq ▸
          (reqBookIds items).nodup_dedup) hdup
    omega
  simp only [createTransaction, createTransactionF]
  rw [if_neg (by simpa using hne), if_neg (by simp [hok]),
    if_pos (Nat.ne_of_lt hlt)]

/-- Witness for `C10_duplicate_ids`: ordering book 1 (which exists, with
ample stock) on two lines is rejected with "One or more books not found". -/
theorem C10_duplicate_ids_witness :
    createTransaction ⟨some 1, some [⟨some 1, 2⟩, ⟨some 1, 2⟩]⟩ demoDb =
      (CreateRes.booksNotFound, demoDb) :=
  C10_duplicate_ids 1 [⟨some 1, 2⟩, ⟨some 1, 2⟩] demoDb (by decide) (by decide)
    (by decide) (by decide)

/-- Claim C8:.  Over any non-empty set of persisted transactions (each with at
least one detail, as `createTransaction` guarantees), the statistics return
`some` most- and least-popular genre; each carries as `totalTransactions`
exactly its genre's popularity — the sum of `detail.quantity` over every
detail whose book belongs to that genre — and that popularity is maximal
(resp. minimal) among the genres occurring in the data. -/
theorem C8_genre_popularity (ts : List STrans)
    (hne : ts ≠ []) (hdet : ∀ t ∈ ts, t.details ≠ []) :
    ∃ m lo,
      (getTransactionStatistics ts).mostPopularGenre = some m ∧
      (getTransactionStatistics ts).leastPopularGenre = some lo ∧
      m.totalTransactions = genreSum ts m.genreId ∧
      lo.totalTransactions = genreSum ts lo.genreId ∧
      ∀ t ∈ ts, ∀ d ∈ t.details,
        genreSum ts d.genreId ≤ m.totalTransactions ∧
        lo.totalTransactions ≤ genreSum ts d.genreId := by
  obtain ⟨t0, ht0⟩ := List.exists_mem_of_ne_nil ts hne
  have hperm := sortedEntries_perm ts
  have hentne : genreCount ts ≠ [] := by
    rw [genreCount]
    exact genreCount_fold_ne_nil ts [] (Or.inr ⟨t0, ht0, hdet t0 ht0⟩)
  have hsortne : sortedEntries ts ≠ [] := by
    intro hc
    exact hentne ((hc ▸ hperm).symm.eq_nil)
  have hnd := genreCount_gids_nodup ts
  have hpair := sortedEntries_pairwise ts
  have hhead : (sortedEntries ts).head? = some ((sortedEntries ts).head hsortne) :=
    List.head?_eq_head hsortne
  have hlast : (sortedEntries ts).getLast? =
      some ((sortedEntries ts).getLast hsortne) :=
    List.getLast?_eq_getLast _ hsortne
  have hcountOf : ∀ e ∈ sortedEntries ts, e.count = genreSum ts e.gid := by
    intro e hes
    have hee : e ∈ genreCount ts := hperm.mem_iff.mp hes
    have hf := find?_of_mem_nodup (genreCount ts) e hnd hee
    rw [← gcount_genreCount ts e.gid, gcount, hf]
    rfl
  have hmax := pairwise_head_max (sortedEntries ts) hpair hsortne
  have hmin := pairwise_getLast_min (sortedEntries ts) hpair
    ((sortedEntries ts).getLast hsortne) hlast
  refine ⟨⟨((sortedEntries ts).head hsortne).gid,
    ((sortedEntries ts).head hsortne).name,
    ((sortedEntries ts).head hsortne).count⟩,
    ⟨((sortedEntries ts).getLast hsortne).gid,
    ((sortedEntries ts).getLast hsortne).name,
    ((sortedEntries ts).getLast hsortne).count⟩, ?_, ?_, ?_, ?_, ?_⟩
  · show ((sortedEntries ts).head?.map (fun e => (⟨e.gid, e.name, e.count⟩ :
      GenreStat))) = _
    rw [hhead]
    rfl
  · show ((sortedEntries ts).getLast?.map (fun e => (⟨e.gid, e.name, e.count⟩ :
      GenreStat))) = _
    rw [hlast]
    rfl
  · exact hcountOf _ (List.head_mem hsortne)
  · exact hcountOf _ (List.getLast_mem hsortne)
  · intro t ht d hd
    have hsome : ((genreCount ts).find? (fun e => e.gid = d.genreId)).isSome := by
      rw [genreCount]
      exact presence_fold ts [] d.genreId (Or.inr ⟨t, ht, d, hd, rfl⟩)
    obtain ⟨e, hfe⟩ := Option.isSome_iff_exists.mp hsome
    have hemem : e ∈ genreCount ts := List.mem_of_find?_eq_some hfe
    have hes : e ∈ sortedEntries ts := hperm.mem_iff.mpr hemem
    have hecnt : e.count = genreSum ts d.genreId := by
      rw [← gcount_genreCount ts d.genreId, gcount, hfe]
      rfl
    exact ⟨hecnt ▸ hmax e hes, hecnt ▸ hmin e hes⟩

/-- Witness for `C8_genre_popularity`: two transactions over two genres
(genre 1 sells 3, genre 2 sells 1 + 2). -/
theorem C8_genre_popularity_witness :
    ∃ m lo,
      (getTransactionStatistics
        [⟨31, [⟨3, 1, "fant"⟩, ⟨1, 2, "sci"⟩]⟩, ⟨14, [⟨2, 2, "sci"⟩]⟩]).mostPopularGenre =
        some m ∧
      (getTransactionStatistics
        [⟨31, [⟨3, 1, "fant"⟩, ⟨1, 2, "sci"⟩]⟩, ⟨14, [⟨2, 2, "sci"⟩]⟩]).leastPopularGenre =
        some lo ∧
      m.totalTransactions =
        genreSum [⟨31, [⟨3, 1, "fant"⟩, ⟨1, 2, "sci"⟩]⟩, ⟨14, [⟨2, 2, "sci"⟩]⟩]
          m.genreId ∧
      lo.totalTransactions =
        genreSum [⟨31, [⟨3, 1, "fant"⟩, ⟨1, 2, "sci"⟩]⟩, ⟨14, [⟨2, 2, "sci"⟩]⟩]
          lo.genreId ∧
      ∀ t ∈ [⟨31, [⟨3, 1, "fant"⟩, ⟨1, 2, "sci"⟩]⟩,
          (⟨14, [⟨2, 2, "sci"⟩]⟩ : STrans)], ∀ d ∈ t.details,
        genreSum [⟨31, [⟨3, 1, "fant"⟩, ⟨1, 2, "sci"⟩]⟩, ⟨14, [⟨2, 2, "sci"⟩]⟩]
            d.genreId ≤ m.totalTransactions ∧
        lo.totalTransactions ≤
          genreSum [⟨31, [⟨3, 1, "fant"⟩, ⟨1, 2, "sci"⟩]⟩, ⟨14, [⟨2, 2, "sci"⟩]⟩]
            d.genreId :=
  C8_genre_popularity
    [⟨31, [⟨3, 1, "fant"⟩, ⟨1, 2, "sci"⟩]⟩, ⟨14, [⟨2, 2, "sci"⟩]⟩]
    (by decide) (by decide)

end Bookstore
